import Mathlib

/-!
Shallow embedding of the client-side state machine of the ISP churn-prediction
frontend (src/project/src/App.tsx): the form record, per-edit validation and
clamping, wizard navigation, the submission lifecycle, and the two
probability-to-output mappings.  JavaScript numbers are modelled as rationals
(the comparisons the program performs are exact on the literals involved), the
TypeScript `number | ''` sum as `Option ℚ`, and the result of `parseFloat` on
the raw input string as an abstract three-way outcome (empty string,  not a
number, a numeric value).
-/

namespace ChurnApp

/-- The 21 field names of the `FormData` interface, in declaration order. -/
inductive FieldName where
  | total_unsuccessful_calls
  | CustomerServiceInteractionRatio
  | MinutesOverUsage
  | TotalRevenueGenerated
  | TotalCallFeaturesUsed
  | RetentionCalls
  | RetentionOffersAccepted
  | MadeCallToRetentionTeam
  | AdjustmentsToCreditRating
  | MonthlyRevenue
  | TotalRecurringCharge
  | OverageMinutes
  | MonthsInService
  | PercChangeMinutes
  | PercChangeRevenues
  | HandsetPrice
  | CreditRating
  | IncomeGroup
  | AgeHH1
  | AgeHH2
  | ChildrenInHH
  deriving DecidableEq, Fintype

/-- Form data: each field holds a number or the empty-string sentinel,
modelled as `Option ℚ` (`none` = unset). -/
def FormData : Type := FieldName → Option ℚ

/-- Initial form data: every field starts as the empty string (unset). -/
def initialFormData : FormData := fun _ => none

/-- The `Object.values` order of the 21 fields, as iterated by `handleSubmit`. -/
def allFields : List FieldName :=
  [.total_unsuccessful_calls, .CustomerServiceInteractionRatio, .MinutesOverUsage,
   .TotalRevenueGenerated, .TotalCallFeaturesUsed, .RetentionCalls,
   .RetentionOffersAccepted, .MadeCallToRetentionTeam, .AdjustmentsToCreditRating,
   .MonthlyRevenue, .TotalRecurringCharge, .OverageMinutes, .MonthsInService,
   .PercChangeMinutes, .PercChangeRevenues, .HandsetPrice, .CreditRating,
   .IncomeGroup, .AgeHH1, .AgeHH2, .ChildrenInHH]

/-- Per-field numeric constraints: `{ min?: number; max?: number }`. -/
structure FieldConstraint where
  min : Option ℚ := none
  max : Option ℚ := none
  deriving DecidableEq

/-- The `fieldConstraints` table from the source. -/
def fieldConstraints : FieldName → FieldConstraint
  | .total_unsuccessful_calls => { min := some 0 }
  | .CustomerServiceInteractionRatio => { min := some 0, max := some 1 }
  | .MinutesOverUsage => { min := some 0 }
  | .TotalRevenueGenerated => { min := some 0 }
  | .TotalCallFeaturesUsed => { min := some 0 }
  | .RetentionCalls => { min := some 0 }
  | .RetentionOffersAccepted => { min := some 0 }
  | .MadeCallToRetentionTeam => { min := some 0, max := some 1 }
  | .AdjustmentsToCreditRating => { min := some 0 }
  | .MonthlyRevenue => { min := some 0 }
  | .TotalRecurringCharge => { min := some 0 }
  | .OverageMinutes => { min := some 0 }
  | .MonthsInService => { min := some 0 }
  | .PercChangeMinutes => { min := some (-100), max := some 100 }
  | .PercChangeRevenues => { min := some (-100), max := some 100 }
  | .HandsetPrice => { min := some 0 }
  | .CreditRating => { min := some 1, max := some 5 }
  | .IncomeGroup => { min := some 1, max := some 5 }
  | .AgeHH1 => { min := some 0, max := some 120 }
  | .AgeHH2 => { min := some 0, max := some 120 }
  | .ChildrenInHH => { min := some 0 }

/-- A field group of the wizard: a title and its ordered field names. -/
structure FieldGroup where
  title : String
  fields : List FieldName

/-- The `fieldGroups` list: the five ordered wizard sections. -/
def fieldGroups : List FieldGroup :=
  [⟨"Service Usage",
    [.total_unsuccessful_calls, .MinutesOverUsage, .TotalCallFeaturesUsed,
     .OverageMinutes]⟩,
   ⟨"Customer Service",
    [.CustomerServiceInteractionRatio, .RetentionCalls, .RetentionOffersAccepted,
     .MadeCallToRetentionTeam]⟩,
   ⟨"Financial Information",
    [.TotalRevenueGenerated, .MonthlyRevenue, .TotalRecurringCharge,
     .AdjustmentsToCreditRating]⟩,
   ⟨"Service History",
    [.MonthsInService, .PercChangeMinutes, .PercChangeRevenues, .HandsetPrice]⟩,
   ⟨"Customer Profile",
    [.CreditRating, .IncomeGroup, .AgeHH1, .AgeHH2, .ChildrenInHH]⟩]

/-- Outcome of reading the raw input string of a change event: the empty
string, a string `parseFloat` maps to NaN, or a parsed numeric value. -/
inductive RawInput where
  | empty
  | notNum
  | num (q : ℚ)

/-- The clamping applied by `handleInputChange` to a parsed value: both the
`min` and the `max` test compare the original parsed value, as in the source
(`if numValue < min`, `if numValue > max`). -/
def clampValue (constraints : FieldConstraint) (numValue : ℚ) : ℚ :=
  let v1 : ℚ :=
    match constraints.min with
    | some m => if numValue < m then m else numValue
    | none => numValue
  match constraints.max with
  | some mx => if mx < numValue then mx else v1
  | none => v1

/-- The `handleInputChange` handler: empty input stores the unset sentinel; a
NaN parse leaves the record unchanged; a numeric parse is clamped against the
field constraints and stored. -/
def handleInputChange (name : FieldName) (raw : RawInput) (fd : FormData) :
    FormData :=
  match raw with
  | .empty => Function.update fd name none
  | .notNum => fd
  | .num numValue =>
    Function.update fd name (some (clampValue (fieldConstraints name) numValue))

/-- `PredictionResult` returned by the backend. -/
structure PredictionResult where
  predicted_churn : ℤ
  churn_probability : ℚ
  deriving DecidableEq

/-- The component state of `App`: the six `useState` hooks. -/
structure AppState where
  formData : FormData
  prediction : Option PredictionResult
  loading : Bool
  error : Option String
  currentGroupIndex : ℕ
  showResults : Bool

/-- The initial component state. -/
def initialState : AppState :=
  { formData := initialFormData
    prediction := none
    loading := false
    error := none
    currentGroupIndex := 0
    showResults := false }

/-- Whether some field is empty: `Object.values(formData).some(value => value === '')`. -/
def hasEmptyFields (fd : FormData) : Bool :=
  allFields.any fun f => (fd f).isNone

/-- The validation-failure message set by `handleSubmit`. -/
def validationMessage : String := "Please fill in all fields before submitting."

/-- The message of the `Error` thrown on a non-ok response. -/
def requestFailedMessage : String := "Prediction request failed"

/-- The synchronous part of `handleSubmit`, up to issuing the fetch: on an
incomplete record it stores the validation message and returns without a
network call; otherwise it sets `loading` and clears `error` and issues the
request.  The boolean reports whether a request was issued. -/
def handleSubmit (s : AppState) : AppState × Bool :=
  if hasEmptyFields s.formData then
    ({ s with error := some validationMessage }, false)
  else
    ({ s with loading := true, error := none }, true)

/-- The success continuation of `handleSubmit`: store the parsed result, show
results, and (in the `finally`) clear `loading`.  `error` is not touched. -/
def responseSuccess (r : PredictionResult) (s : AppState) : AppState :=
  { s with prediction := some r, showResults := true, loading := false }

/-- The failure continuation of `handleSubmit` (`catch` + `finally`): store the
error message and clear `loading`.  Neither `showResults` nor `prediction` is
touched. -/
def responseFailure (msg : String) (s : AppState) : AppState :=
  { s with error := some msg, loading := false }

/-- The `nextGroup` handler: advance to the next group, or submit from the
last group. -/
def nextGroup (s : AppState) : AppState × Bool :=
  if s.currentGroupIndex < fieldGroups.length - 1 then
    ({ s with currentGroupIndex := s.currentGroupIndex + 1 }, false)
  else
    handleSubmit s

/-- The `prevGroup` handler: step back one group, a no-op at index 0. -/
def prevGroup (s : AppState) : AppState :=
  if 0 < s.currentGroupIndex then
    { s with currentGroupIndex := s.currentGroupIndex - 1 }
  else s

/-- The `resetForm` handler: restore the form, prediction, group index,
results flag and error to their initial values.  The `loading` flag is not
touched. -/
def resetForm (s : AppState) : AppState :=
  { s with formData := initialFormData
           prediction := none
           currentGroupIndex := 0
           showResults := false
           error := none }

/-- The `getChurnRiskColor` mapping: the tier color classes keyed by
probability. -/
def getChurnRiskColor (probability : ℚ) : String :=
  if probability < 3/10 then "bg-green-100 text-green-800"
  else if probability < 7/10 then "bg-yellow-100 text-yellow-800"
  else "bg-red-100 text-red-800"

/-- The low-tier color classes. -/
def lowTier : String := "bg-green-100 text-green-800"

/-- The medium-tier color classes. -/
def mediumTier : String := "bg-yellow-100 text-yellow-800"

/-- The high-tier color classes. -/
def highTier : String := "bg-red-100 text-red-800"

/-- A titled, ordered action plan. -/
structure RecommendedActions where
  title : String
  steps : List String

/-- The `getRecommendedActions` mapping: the fixed action plan keyed by
probability. -/
def getRecommendedActions (probability : ℚ) : RecommendedActions :=
  if probability > 7/10 then
    { title := "Critical Retention Actions Required"
      steps :=
        ["Analyze recent service disruptions and prepare compensation package",
         "Review competitor offers in customer\x27s area to create a competitive counter-offer",
         "Prepare premium service upgrade proposal with first 3 months at reduced rate",
         "Document all recent customer service interactions for retention specialist review"] }
  else if probability > 4/10 then
    { title := "Preventive Measures Recommended"
      steps :=
        ["Review service usage patterns for optimization opportunities",
         "Prepare proactive upgrade offers based on usage patterns",
         "Schedule routine check-in call within next 2 weeks",
         "Monitor service quality metrics for any degradation"] }
  else
    { title := "Growth Opportunity Identified"
      steps :=
        ["Analyze usage patterns for premium service opportunities",
         "Include in beta testing program for new features",
         "Consider for loyalty rewards program enrollment",
         "Schedule annual service review and upgrade discussion"] }

/-- The fields of the wizard section currently rendered by
`renderCurrentGroup` (the only inputs that exist in the DOM). -/
def currentFields (s : AppState) : List FieldName :=
  ((fieldGroups.get? s.currentGroupIndex).map FieldGroup.fields).getD []

/-- The externally triggerable events of one session.  Form inputs and the
next and previous buttons only exist while the form is rendered
(`showResults = false`), only the current group is rendered, and the next
button is disabled while `loading`; these enablement conditions from the JSX
are encoded in `step`.  A response event stands for the settling of the one
outstanding request, whose existence the `loading` flag tracks (requests are
only issued with `loading` set, settle by clearing it, and cannot be
duplicated while it is set). -/
inductive Event where
  | edit (f : FieldName) (raw : RawInput)
  | next
  | prev
  | reset
  | respSuccess (r : PredictionResult)
  | respFailure (msg : String)

/-- One event of the session.  The boolean reports whether the event issued an
HTTP request. -/
def step : Event → AppState → AppState × Bool
  | .edit f raw, s =>
    if !s.showResults && (currentFields s).contains f then
      ({ s with formData := handleInputChange f raw s.formData }, false)
    else (s, false)
  | .next, s =>
    if s.showResults || s.loading then (s, false) else nextGroup s
  | .prev, s =>
    if s.showResults then (s, false) else (prevGroup s, false)
  | .reset, s => (resetForm s, false)
  | .respSuccess r, s =>
    if s.loading then (responseSuccess r s, false) else (s, false)
  | .respFailure msg, s =>
    if s.loading then (responseFailure msg s, false) else (s, false)

/-- Run a sequence of events from a state. -/
def run (es : List Event) (s : AppState) : AppState :=
  es.foldl (fun t e => (step e t).1) s

/-- The states reachable from the initial state. -/
inductive Reachable : AppState → Prop where
  | init : Reachable initialState
  | succ (e : Event) {s : AppState} : Reachable s → Reachable (step e s).1

/-- A session transcript that fills every field of every group with the value
1 and presses the next button after each group; the final press, on the last
group, submits and leaves the request in flight. -/
def fillForm : List Event :=
  fieldGroups.foldr
    (fun g acc => (g.fields.map fun f => Event.edit f (.num 1)) ++ Event.next :: acc)
    []

/-!  ## Helper lemmas -/

theorem mem_allFields : ∀ f : FieldName, f ∈ allFields := by decide

theorem hasEmptyFields_iff (fd : FormData) :
    hasEmptyFields fd = true ↔ ∃ f, fd f = none := by
  unfold hasEmptyFields
  rw [List.any_eq_true]
  constructor
  · rintro ⟨f, -, hf⟩
    exact ⟨f, Option.isNone_iff_eq_none.mp hf⟩
  · rintro ⟨f, hf⟩
    exact ⟨f, mem_allFields f, by simp [hf]⟩

theorem run_cons (e : Event) (es : List Event) (s : AppState) :
    run (e :: es) s = run es (step e s).1 := rfl

theorem reachable_run (es : List Event) (s : AppState) (h : Reachable s) :
    Reachable (run es s) := by
  induction es generalizing s with
  | nil => exact h
  | cons e es ih => exact ih _ (Reachable.succ e h)

/-!  ## Claim theorems -/

/-- C7: getChurnRiskColor maps probabilities below 0.3 to the low tier,
probabilities in the interval from 0.3 inclusive to 0.7 exclusive to the
medium tier, and probabilities at or above 0.7 to the high tier; in
particular 0.0 is low, 0.3 and 0.69 are medium, and 0.7 and 1.0 are high. -/
theorem getChurnRiskColor_tiers (p : ℚ) :
    (p < 3/10 → getChurnRiskColor p = lowTier) ∧
    (3/10 ≤ p → p < 7/10 → getChurnRiskColor p = mediumTier) ∧
    (7/10 ≤ p → getChurnRiskColor p = highTier) ∧
    getChurnRiskColor 0 = lowTier ∧
    getChurnRiskColor (3/10) = mediumTier ∧
    getChurnRiskColor (69/100) = mediumTier ∧
    getChurnRiskColor (7/10) = highTier ∧
    getChurnRiskColor 1 = highTier := by
  refine ⟨fun h => ?_, fun h1 h2 => ?_, fun h => ?_, ?_, ?_, ?_, ?_, ?_⟩
  · simp [getChurnRiskColor, h, lowTier]
  · simp [getChurnRiskColor, not_lt.mpr h1, h2, mediumTier]
  · simp [getChurnRiskColor, not_lt.mpr (by linarith : (3:ℚ)/10 ≤ p),
      not_lt.mpr h, highTier]
  all_goals norm_num [getChurnRiskColor, lowTier, mediumTier, highTier]

/-- Witness for getChurnRiskColor_tiers: probability one half is classified
into the medium tier. -/
theorem getChurnRiskColor_tiers_witness :
    getChurnRiskColor (1/2) = mediumTier :=
  (getChurnRiskColor_tiers (1/2)).2.1 (by norm_num) (by norm_num)

/-- C6: getRecommendedActions always returns exactly 4 steps, with the
Critical title for probabilities above 0.7, the Preventive title for
probabilities above 0.4 and at most 0.7, and the Growth title at or below
0.4; in particular at 0.8, 0.5 and 0.4 (the 0.4 boundary is exclusive on the
low side). -/
theorem getRecommendedActions_plan (p : ℚ) :
    ((getRecommendedActions p).steps.length = 4) ∧
    (7/10 < p →
      (getRecommendedActions p).title = "Critical Retention Actions Required") ∧
    (4/10 < p → p ≤ 7/10 →
      (getRecommendedActions p).title = "Preventive Measures Recommended") ∧
    (p ≤ 4/10 →
      (getRecommendedActions p).title = "Growth Opportunity Identified") ∧
    (getRecommendedActions (8/10)).title = "Critical Retention Actions Required" ∧
    (getRecommendedActions (1/2)).title = "Preventive Measures Recommended" ∧
    (getRecommendedActions (4/10)).title = "Growth Opportunity Identified" := by
  refine ⟨?_, fun h => ?_, fun h1 h2 => ?_, fun h => ?_, ?_, ?_, ?_⟩
  · unfold getRecommendedActions
    split
    · rfl
    · split <;> rfl
  · simp [getRecommendedActions, h]
  · simp [getRecommendedActions, not_lt.mpr h2, h1]
  · have h7 : ¬ (7/10 : ℚ) < p :=
      not_lt.mpr (le_trans h (by norm_num : (4:ℚ)/10 ≤ 7/10))
    simp [getRecommendedActions, not_lt.mpr h, h7]
  all_goals norm_num [getRecommendedActions]

/-- Witness for getRecommendedActions_plan: probability one half gets the
Preventive plan title. -/
theorem getRecommendedActions_plan_witness :
    (getRecommendedActions (1/2)).title = "Preventive Measures Recommended" :=
  (getRecommendedActions_plan (1/2)).2.2.1 (by norm_num) (by norm_num)

/-- In the constraints table a declared lower bound never exceeds a declared
upper bound. -/
theorem fieldConstraints_consistent (f : FieldName) :
    ∀ m mx, (fieldConstraints f).min = some m →
      (fieldConstraints f).max = some mx → m ≤ mx := by
  intro m mx hm hmx
  cases f <;> simp [fieldConstraints] at hm hmx <;> subst_vars <;> norm_num

theorem clampValue_below {c : FieldConstraint} {m q : ℚ} (hm : c.min = some m)
    (hc : ∀ mn mx, c.min = some mn → c.max = some mx → mn ≤ mx) (h : q < m) :
    clampValue c q = m := by
  unfold clampValue
  rcases hmx : c.max with _ | mx
  · simp [hm, hmx, h]
  · have hq : ¬ mx < q := not_lt.mpr (le_trans (le_of_lt h) (hc m mx hm hmx))
    simp [hm, hmx, h, hq]

theorem clampValue_above {c : FieldConstraint} {mx q : ℚ} (hmx : c.max = some mx)
    (h : mx < q) : clampValue c q = mx := by
  unfold clampValue
  simp [hmx, h]

theorem clampValue_id {c : FieldConstraint} {q : ℚ}
    (h1 : ∀ m, c.min = some m → m ≤ q)
    (h2 : ∀ mx, c.max = some mx → q ≤ mx) :
    clampValue c q = q := by
  unfold clampValue
  rcases hm : c.min with _ | m <;> rcases hmx : c.max with _ | mx
  · simp [hm, hmx]
  · simp [hm, hmx, not_lt.mpr (h2 mx hmx)]
  · simp [hm, hmx, not_lt.mpr (h1 m hm)]
  · simp [hm, hmx, not_lt.mpr (h1 m hm), not_lt.mpr (h2 mx hmx)]

theorem clampValue_min_le {c : FieldConstraint} {m : ℚ} (q : ℚ)
    (hm : c.min = some m)
    (hc : ∀ mn mx, c.min = some mn → c.max = some mx → mn ≤ mx) :
    m ≤ clampValue c q := by
  unfold clampValue
  rcases hmx : c.max with _ | mx
  · simp only [hm, hmx]
    split_ifs with h
    · exact le_refl m
    · exact le_of_not_lt h
  · simp only [hm, hmx]
    split_ifs with h1 h2
    · exact hc m mx hm hmx
    · exact le_refl m
    · exact le_of_not_lt h2

theorem clampValue_le_max {c : FieldConstraint} {mx : ℚ} (q : ℚ)
    (hmx : c.max = some mx)
    (hc : ∀ mn mx2, c.min = some mn → c.max = some mx2 → mn ≤ mx2) :
    clampValue c q ≤ mx := by
  unfold clampValue
  rcases hm : c.min with _ | m
  · simp only [hm, hmx]
    split_ifs with h
    · exact le_refl mx
    · exact le_of_not_lt h
  · simp only [hm, hmx]
    split_ifs with h1 h2
    · exact le_refl mx
    · exact hc m mx hm hmx
    · exact le_of_not_lt h1

/-- A value respects the declared bounds of a field. -/
def inBounds (f : FieldName) (q : ℚ) : Prop :=
  (∀ m, (fieldConstraints f).min = some m → m ≤ q) ∧
  (∀ mx, (fieldConstraints f).max = some mx → q ≤ mx)

/-- Every set field of a form respects its declared bounds. -/
def FormOK (fd : FormData) : Prop :=
  ∀ f q, fd f = some q → inBounds f q

/-- C4: an edit leaves every stored field either unset or within its declared
bounds (so with both bounds declared, within the closed interval), and on a
numeric parse the stored value is the declared minimum when the parsed value
is below it, the declared maximum when above it, and the parsed value itself
otherwise. -/
theorem handleInputChange_clamps (name : FieldName) (raw : RawInput)
    (fd : FormData) (hfd : FormOK fd) :
    FormOK (handleInputChange name raw fd) ∧
    (∀ q m, raw = .num q → (fieldConstraints name).min = some m → q < m →
      handleInputChange name raw fd name = some m) ∧
    (∀ q mx, raw = .num q → (fieldConstraints name).max = some mx → mx < q →
      handleInputChange name raw fd name = some mx) ∧
    (∀ q, raw = .num q → inBounds name q →
      handleInputChange name raw fd name = some q) := by
  have hc := fieldConstraints_consistent name
  cases raw with
  | empty =>
    refine ⟨?_, ?_, ?_, ?_⟩
    · intro f q h
      rcases eq_or_ne f name with rfl | hne
      · simp only [handleInputChange, Function.update_same] at h
        cases h
      · simp only [handleInputChange, Function.update_noteq hne] at h
        exact hfd f q h
    · intro q m hq _ _
      cases hq
    · intro q mx hq _ _
      cases hq
    · intro q hq _
      cases hq
  | notNum =>
    refine ⟨?_, ?_, ?_, ?_⟩
    · intro f q h
      exact hfd f q h
    · intro q m hq _ _
      cases hq
    · intro q mx hq _ _
      cases hq
    · intro q hq _
      cases hq
  | num q0 =>
    have hmain : handleInputChange name (.num q0) fd name
        = some (clampValue (fieldConstraints name) q0) := by
      simp only [handleInputChange, Function.update_same]
    refine ⟨?_, ?_, ?_, ?_⟩
    · intro f q h
      rcases eq_or_ne f name with rfl | hne
      · simp only [handleInputChange, Function.update_same] at h
        injection h with h'
        subst h'
        exact ⟨fun m hm => clampValue_min_le q0 hm hc,
               fun mx hmx => clampValue_le_max q0 hmx hc⟩
      · simp only [handleInputChange, Function.update_noteq hne] at h
        exact hfd f q h
    · intro q m hq hm hlt
      injection hq with hq'
      subst hq'
      rw [hmain, clampValue_below hm hc hlt]
    · intro q mx hq hmx hlt
      injection hq with hq'
      subst hq'
      rw [hmain, clampValue_above hmx hlt]
    · intro q hq hb
      injection hq with hq'
      subst hq'
      rw [hmain, clampValue_id hb.1 hb.2]

/-- Witness for handleInputChange_clamps: entering 10 into the CreditRating
field (declared range 1 to 5) stores 5. -/
theorem handleInputChange_clamps_witness :
    handleInputChange .CreditRating (.num 10) initialFormData .CreditRating
      = some 5 :=
  (handleInputChange_clamps .CreditRating (.num 10) initialFormData
    (fun _ q h => absurd h (by simp [initialFormData]))).2.2.1 10 5 rfl rfl
    (by norm_num)

/-- C5: submission with some field unset stores the validation message and
issues no network request, leaving every other component (in particular
showResults) unchanged; with all 21 fields set it proceeds to exactly the
network call, setting loading and clearing the error. -/
theorem handleSubmit_precondition (s : AppState) :
    ((∃ f, s.formData f = none) →
      handleSubmit s = ({ s with error := some validationMessage }, false)) ∧
    ((∀ f, s.formData f ≠ none) →
      handleSubmit s = ({ s with loading := true, error := none }, true)) := by
  constructor
  · intro h
    have hx : hasEmptyFields s.formData = true := (hasEmptyFields_iff _).mpr h
    simp [handleSubmit, hx]
  · intro h
    cases hx : hasEmptyFields s.formData with
    | true =>
      rcases (hasEmptyFields_iff _).mp hx with ⟨f, hf⟩
      exact absurd hf (h f)
    | false => simp [handleSubmit, hx]

/-- Witness for handleSubmit_precondition: submitting the all-unset initial
state stores the validation message and issues no request. -/
theorem handleSubmit_precondition_witness :
    handleSubmit initialState
      = ({ initialState with error := some validationMessage }, false) :=
  (handleSubmit_precondition initialState).1 ⟨.AgeHH1, rfl⟩

/-- C3: while loading is true the submission trigger (the next button, the
only submit path in the component) is a no-op: the state is unchanged and no
HTTP request is issued. -/
theorem loading_blocks_resubmit (s : AppState) (h : s.loading = true) :
    step Event.next s = (s, false) := by
  simp [step, h]

/-- Witness for loading_blocks_resubmit at a concrete loading state. -/
theorem loading_blocks_resubmit_witness :
    step Event.next { initialState with loading := true }
      = ({ initialState with loading := true }, false) :=
  loading_blocks_resubmit { initialState with loading := true } rfl

/-- C9: resetForm, from any state whatsoever, restores the initial values of
the group index, the results flag, the prediction, the error, and every one
of the 21 form fields. -/
theorem resetForm_restores_initial (s : AppState) :
    (resetForm s).currentGroupIndex = 0 ∧
    (resetForm s).showResults = false ∧
    (resetForm s).prediction = none ∧
    (resetForm s).error = none ∧
    (resetForm s).formData = initialFormData := by
  simp [resetForm]

/-- C10: resetForm never modifies the loading flag, and only the completion
handlers of the outstanding request clear it. -/
theorem resetForm_preserves_loading (s : AppState) (r : PredictionResult)
    (msg : String) :
    (resetForm s).loading = s.loading ∧
    (responseSuccess r s).loading = false ∧
    (responseFailure msg s).loading = false := by
  simp [resetForm, responseSuccess, responseFailure]

/-- The inductive invariant of the session: when results are shown a
prediction is stored, the error is clear and no request is in flight; and
while a request is in flight the error is clear. -/
def Inv (s : AppState) : Prop :=
  (s.showResults = true →
    s.prediction.isSome ∧ s.error = none ∧ s.loading = false) ∧
  (s.loading = true → s.error = none)

theorem inv_initialState : Inv initialState := by
  simp [Inv, initialState]

theorem inv_step (e : Event) (s : AppState) (h : Inv s) : Inv (step e s).1 := by
  obtain ⟨h1, h2⟩ := h
  cases e with
  | edit f raw =>
    simp only [step]
    split
    · exact ⟨h1, h2⟩
    · exact ⟨h1, h2⟩
  | next =>
    simp only [step]
    split
    · exact ⟨h1, h2⟩
    · rename_i hcond
      have hsr : s.showResults = false := by
        cases hb : s.showResults
        · rfl
        · simp [hb] at hcond
      have hld : s.loading = false := by
        cases hb : s.loading
        · rfl
        · simp [hb] at hcond
      unfold nextGroup
      split
      · exact ⟨fun hx => absurd hx (by simp [hsr]), fun hx => h2 hx⟩
      · unfold handleSubmit
        split
        · exact ⟨fun hx => absurd hx (by simp [hsr]),
                 fun hx => absurd hx (by simp [hld])⟩
        · exact ⟨fun hx => absurd hx (by simp [hsr]), fun _ => rfl⟩
  | prev =>
    simp only [step]
    split
    · exact ⟨h1, h2⟩
    · unfold prevGroup
      split
      · exact ⟨h1, h2⟩
      · exact ⟨h1, h2⟩
  | reset =>
    exact ⟨fun hx => absurd hx (by simp [step, resetForm]), fun _ => rfl⟩
  | respSuccess r =>
    simp only [step]
    split
    · rename_i hld
      exact ⟨fun _ => ⟨rfl, h2 hld, rfl⟩,
             fun hx => by simp [responseSuccess] at hx⟩
    · exact ⟨h1, h2⟩
  | respFailure msg =>
    simp only [step]
    split
    · rename_i hld
      refine ⟨fun hx => ?_, fun hx => ?_⟩
      · rw [(h1 hx).2.2] at hld
        cases hld
      · simp [responseFailure] at hx
    · exact ⟨h1, h2⟩

theorem inv_reachable {s : AppState} (h : Reachable s) : Inv s := by
  induction h with
  | init => exact inv_initialState
  | succ e hs ih => exact inv_step e _ ih

/-- C8: in every state reachable from the initial state through edits,
navigation, reset and the submission lifecycle, showResults true implies that
an error or a result is stored, and never both at once. -/
theorem showResults_outcome (s : AppState) (hr : Reachable s)
    (hs : s.showResults = true) :
    (s.error ≠ none ∨ s.prediction ≠ none) ∧
    ¬(s.error ≠ none ∧ s.prediction ≠ none) := by
  obtain ⟨h1, -⟩ := inv_reachable hr
  obtain ⟨hp, he, -⟩ := h1 hs
  refine ⟨Or.inr (Option.ne_none_iff_isSome.mpr hp), ?_⟩
  rintro ⟨he2, -⟩
  exact he2 he

/-- Witness for showResults_outcome: the reachable state after one complete,
successful submission session shows results with a stored prediction and no
error. -/
theorem showResults_outcome_witness :
    ((run (fillForm ++ [Event.respSuccess ⟨1, 17/20⟩]) initialState).error ≠ none ∨
      (run (fillForm ++ [Event.respSuccess ⟨1, 17/20⟩]) initialState).prediction
        ≠ none) ∧
    ¬((run (fillForm ++ [Event.respSuccess ⟨1, 17/20⟩]) initialState).error ≠ none ∧
      (run (fillForm ++ [Event.respSuccess ⟨1, 17/20⟩]) initialState).prediction
        ≠ none) :=
  showResults_outcome _ (reachable_run _ initialState Reachable.init) rfl

/-- C1: after a complete form is submitted and the request fails, the code
stores the error message, clears loading and leaves the result unset, but it
leaves showResults false — the failure branch of handleSubmit never sets it,
so the results screen (the only place the error is rendered) never appears. -/
theorem submit_failure_leaves_showResults_false :
    (run (fillForm ++ [Event.respFailure requestFailedMessage])
        initialState).error = some requestFailedMessage ∧
    (run (fillForm ++ [Event.respFailure requestFailedMessage])
        initialState).loading = false ∧
    (run (fillForm ++ [Event.respFailure requestFailedMessage])
        initialState).prediction = none ∧
    (run (fillForm ++ [Event.respFailure requestFailedMessage])
        initialState).showResults = false :=
  ⟨rfl, rfl, rfl, rfl⟩

/-- C2: a reset issued while the request is in flight does not invalidate the
outstanding session: when the stale response arrives the code stores its
result and shows the results screen, resurrecting the cleared session instead
of discarding the response. -/
theorem stale_response_resurrected :
    (run (fillForm ++ [Event.reset, Event.respSuccess ⟨1, 4/5⟩])
        initialState).prediction = some ⟨1, 4/5⟩ ∧
    (run (fillForm ++ [Event.reset, Event.respSuccess ⟨1, 4/5⟩])
        initialState).showResults = true :=
  ⟨rfl, rfl⟩

end ChurnApp
